import Mathlib

/-!
Verification of the `the-resistance` repository: a socket.io presence relay
(`src/server/src/index.ts`) and a three.js first-person client
(`src/client/src/main.ts`).

The server is embedded as a state machine over the set of connected socket
identifiers and the room-membership map maintained by the socket.io adapter.
The client camera controller is embedded over the real numbers, with the
three.js quaternion formulas (`Quaternion.setFromEuler` with order YXZ and
`Vector3.applyQuaternion`) transcribed literally.
-/

/-! ## Server embedding (src/server/src/index.ts) -/

/-- The relay's state: the set of currently connected socket ids, and the
socket.io adapter's room table, modelled as a map from room name to member
set (a room that was never joined, or whose members all left, is the empty
set; the adapter reports such rooms as absent, see `roomLookup`).
Per-socket-id singleton rooms maintained internally by socket.io are not
modelled: the handlers under verification only look up rooms by team name. -/
structure ServerState where
  connected : Finset String
  rooms : String → Finset String

/-- State before any connection: no sockets, all rooms empty. -/
def initialState : ServerState :=
  ServerState.mk ∅ (fun _ => ∅)

/-- Payloads relayed verbatim by the server (`data.position`, `data.rotation`
in the `player-move` handler) are modelled by an arbitrary type `V`: the
handler never inspects them. -/
inductive ServerEvent (V : Type) where
  | welcome (target : String) (message : String) (playerId : String)
  | playerMoved (target : String) (playerId : String) (position rotation : V)
  | teamJoined (target : String) (team : String)
  | teamUpdate (target : String) (message : String) (playerCount : Nat)

/-- Inbound events the relay reacts to: transport handshake, transport
teardown, and the two named client events. -/
inductive ClientEvent (V : Type) where
  | connect (sid : String)
  | disconnect (sid : String)
  | playerMove (sid : String) (position rotation : V)
  | joinTeam (sid team : String)

/-- State change of a handshake: the socket becomes connected. -/
def connectState (st : ServerState) (sid : String) : ServerState :=
  ServerState.mk (insert sid st.connected) st.rooms

/-- State change of a teardown: socket.io removes the socket from the
connected set and from every room it was a member of (automatic adapter
cleanup; the repository's own `disconnect` handler only logs). -/
def disconnectState (st : ServerState) (sid : String) : ServerState :=
  ServerState.mk (st.connected.erase sid) (fun r => (st.rooms r).erase sid)

/-- State change of `socket.join(team)`: the socket is added to that room;
no other room is touched and no prior membership is removed. -/
def joinRoom (st : ServerState) (sid team : String) : ServerState :=
  ServerState.mk st.connected
    (fun r => if r = team then insert sid (st.rooms r) else st.rooms r)

/-- Embedding of `io.sockets.adapter.rooms.get(team)`: `none` when the room
has no members (socket.io deletes empty rooms from the adapter map). -/
def roomLookup (st : ServerState) (team : String) : Option (Finset String) :=
  if st.rooms team = ∅ then none else some (st.rooms team)

/-- Embedding of `io.sockets.adapter.rooms.get(team)?.size || 0`. -/
def teamPlayerCount (st : ServerState) (team : String) : Nat :=
  match roomLookup st team with
  | some room => room.card
  | none => 0

/-- Iteration order over a set of socket ids when fanning a broadcast out
into a list of deliveries (the adapter iterates its hash set; any duplicate
free enumeration is faithful, here the sorted one is used so that the model
stays executable). -/
def idList (s : Finset String) : List String :=
  s.sort (· ≤ ·)

/-- Targets of `socket.broadcast.emit`: every connected socket except the
sender. -/
def broadcastTargets (st : ServerState) (sid : String) : List String :=
  idList (st.connected.erase sid)

/-- The `connection` handler body: register the socket and send `welcome`. -/
def onConnect {V : Type} (st : ServerState) (sid : String) :
    ServerState × List (ServerEvent V) :=
  (connectState st sid,
    [ServerEvent.welcome sid "Welcome to The Resistance" sid])

/-- The `disconnect` handler: the repository handler only logs; the state
change is socket.io's automatic cleanup. No departure broadcast is emitted. -/
def onDisconnect {V : Type} (st : ServerState) (sid : String) :
    ServerState × List (ServerEvent V) :=
  (disconnectState st sid, [])

/-- The `player-move` handler: rebroadcast a `player-moved` event carrying
the sender's id and the report's position and rotation to every other
connected socket. State is unchanged. -/
def onPlayerMove {V : Type} (st : ServerState) (sid : String)
    (position rotation : V) : ServerState × List (ServerEvent V) :=
  (st, (broadcastTargets st sid).map
    (fun t => ServerEvent.playerMoved t sid position rotation))

/-- The `join-team` handler: `socket.join(team)`, then `team-joined` to the
sender, then `team-update` via `io.to(team)` to every member of the room
(the sender included, since it just joined), carrying the adapter's room
size after the join. -/
def onJoinTeam {V : Type} (st : ServerState) (sid team : String) :
    ServerState × List (ServerEvent V) :=
  let st' := joinRoom st sid team
  (st', ServerEvent.teamJoined sid team ::
    (idList (st'.rooms team)).map
      (fun t => ServerEvent.teamUpdate t ("New player joined " ++ team)
        (teamPlayerCount st' team)))

/-- One inbound event processed to a new state and emitted events. -/
def applyEvent {V : Type} (st : ServerState) :
    ClientEvent V → ServerState × List (ServerEvent V)
  | ClientEvent.connect sid => onConnect st sid
  | ClientEvent.disconnect sid => onDisconnect st sid
  | ClientEvent.playerMove sid p r => onPlayerMove st sid p r
  | ClientEvent.joinTeam sid team => onJoinTeam st sid team

/-- A sequence of inbound events processed in order, collecting emissions. -/
def run {V : Type} (st : ServerState) :
    List (ClientEvent V) → ServerState × List (ServerEvent V)
  | [] => (st, [])
  | e :: es =>
    let step := applyEvent st e
    let rest := run step.fst es
    (rest.fst, step.snd ++ rest.snd)

/-- The `playerId`, `position` and `rotation` fields of a `player-moved`
event when it is addressed to socket `t`. -/
def movePayload {V : Type} (t : String) : ServerEvent V → Option (String × V × V)
  | ServerEvent.playerMoved tgt pid p r =>
    if tgt = t then some (pid, p, r) else none
  | _ => none

/-- The `player-moved` messages delivered to socket `t`, with their
`playerId`, `position` and `rotation` fields. -/
def receivedMoves {V : Type} (t : String) (evs : List (ServerEvent V)) :
    List (String × V × V) :=
  evs.filterMap (movePayload t)

/-- States reachable over the relay's lifetime. socket.io delivers
`player-move` and `join-team` only for currently connected sockets, fires
`disconnect` only for connected sockets, and never reuses a live id for a
new handshake. `player-move` does not change the state, so it needs no
constructor. -/
inductive Reachable : ServerState → Prop where
  | init : Reachable initialState
  | connect (st : ServerState) (sid : String) :
      Reachable st → sid ∉ st.connected → Reachable (connectState st sid)
  | disconnect (st : ServerState) (sid : String) :
      Reachable st → sid ∈ st.connected → Reachable (disconnectState st sid)
  | joinTeam (st : ServerState) (sid team : String) :
      Reachable st → sid ∈ st.connected → Reachable (joinRoom st sid team)

/-- Body of the `/health` response: `{status: 'ok', message: ...}`. -/
structure HealthBody where
  status : String
  message : String

/-- An HTTP response with its status code (express `res.json` replies 200). -/
structure HttpResponse where
  statusCode : Nat
  body : HealthBody

/-- The `GET /health` handler. It reads no request data and no relay state;
it is modelled as a (constant) function of the relay state to express that
its response is the same in every reachable state, and it is total: there
is no failure path. -/
def healthHandler (_st : ServerState) : HttpResponse :=
  HttpResponse.mk 200 (HealthBody.mk "ok" "The Resistance server is running")

/-! ## Client embedding (src/client/src/main.ts)

Floating point numbers and the trigonometric functions of `Math` are
idealised as real numbers, so this section is noncomputable. -/

noncomputable section

/-- A three.js `Vector3`. -/
structure Vec3 where
  x : ℝ
  y : ℝ
  z : ℝ

/-- Componentwise `Vector3.add`. -/
def Vec3.add (a b : Vec3) : Vec3 :=
  Vec3.mk (a.x + b.x) (a.y + b.y) (a.z + b.z)

/-- Componentwise `Vector3.sub`. -/
def Vec3.sub (a b : Vec3) : Vec3 :=
  Vec3.mk (a.x - b.x) (a.y - b.y) (a.z - b.z)

/-- Scalar multiple, three.js `Vector3.multiplyScalar`. -/
def Vec3.smul (r : ℝ) (v : Vec3) : Vec3 :=
  Vec3.mk (r * v.x) (r * v.y) (r * v.z)

/-- Euclidean norm, three.js `Vector3.length`. -/
def Vec3.length (v : Vec3) : ℝ :=
  Real.sqrt (v.x * v.x + v.y * v.y + v.z * v.z)

/-- A three.js `Quaternion`. -/
structure Quat where
  x : ℝ
  y : ℝ
  z : ℝ
  w : ℝ

/-- Transcription of three.js `Vector3.applyQuaternion`. -/
def Vec3.applyQuaternion (v : Vec3) (q : Quat) : Vec3 :=
  let tx := 2 * (q.y * v.z - q.z * v.y)
  let ty := 2 * (q.z * v.x - q.x * v.z)
  let tz := 2 * (q.x * v.y - q.y * v.x)
  Vec3.mk (v.x + q.w * tx + (q.y * tz - q.z * ty))
    (v.y + q.w * ty + (q.z * tx - q.x * tz))
    (v.z + q.w * tz + (q.x * ty - q.y * tx))

/-- Transcription of three.js `Quaternion.setFromEuler` for rotation order
`YXZ`, as used by `new THREE.Euler(pitch, yaw, 0, 'YXZ')`. -/
def Quat.setFromEulerYXZ (ex ey ez : ℝ) : Quat :=
  let c1 := Real.cos (ex / 2)
  let c2 := Real.cos (ey / 2)
  let c3 := Real.cos (ez / 2)
  let s1 := Real.sin (ex / 2)
  let s2 := Real.sin (ey / 2)
  let s3 := Real.sin (ez / 2)
  Quat.mk (s1 * c2 * c3 + c1 * s2 * s3) (c1 * s2 * c3 - s1 * c2 * s3)
    (c1 * c2 * s3 - s1 * s2 * c3) (c1 * c2 * c3 + s1 * s2 * s3)

/-- The camera controller state of the `Game` class: the `yaw` and `pitch`
fields and the camera's quaternion and position. -/
structure ClientState where
  yaw : ℝ
  pitch : ℝ
  camQuat : Quat
  camPos : Vec3

/-- State after the constructor: `yaw = 0`, `pitch = 0`, the camera at its
default identity orientation, positioned by `camera.position.set(0, 1.8, 5)`. -/
def initialClientState : ClientState :=
  ClientState.mk 0 0 (Quat.mk 0 0 0 1) (Vec3.mk 0 1.8 5)

/-- One raw `mousemove` sample: whether `document.pointerLockElement` is the
document body at delivery time, and the `movementX`/`movementY` deltas. -/
structure MouseSample where
  locked : Bool
  movementX : ℝ
  movementY : ℝ

/-- The `mousemove` handler: when pointer capture is active, integrate the
deltas into `yaw` and `pitch` with sensitivity `0.002`, clamp `pitch` to
`[-pi/2, pi/2]`, and immediately rewrite the camera quaternion from the YXZ
Euler angles; otherwise do nothing. -/
def onMouseMove (st : ClientState) (s : MouseSample) : ClientState :=
  if s.locked then
    let sensitivity : ℝ := 0.002
    let yaw' := st.yaw - s.movementX * sensitivity
    let pitchRaw := st.pitch - s.movementY * sensitivity
    let pitch' := max (-(Real.pi / 2)) (min (Real.pi / 2) pitchRaw)
    ClientState.mk yaw' pitch' (Quat.setFromEulerYXZ pitch' yaw' 0) st.camPos
  else st

/-- A sequence of raw pointer-movement samples applied in arrival order. -/
def runMouse (st : ClientState) (samples : List MouseSample) : ClientState :=
  samples.foldl onMouseMove st

/-- Held state of the four movement keys read by the movement handler. -/
structure Keys where
  w : Bool
  s : Bool
  a : Bool
  d : Bool

/-- Only `KeyW` held. -/
def onlyW : Keys :=
  Keys.mk true false false false

/-- The local-space direction accumulated by the four key checks of
`handleMovement` before rotation (each held key adds `speed * deltaTime`
along its axis). -/
def moveDirection (keys : Keys) (speed deltaTime : ℝ) : Vec3 :=
  let d0 := Vec3.mk 0 0 0
  let d1 := if keys.w then Vec3.mk d0.x d0.y (d0.z - speed * deltaTime) else d0
  let d2 := if keys.s then Vec3.mk d1.x d1.y (d1.z + speed * deltaTime) else d1
  let d3 := if keys.a then Vec3.mk (d2.x - speed * deltaTime) d2.y d2.z else d2
  let d4 := if keys.d then Vec3.mk (d3.x + speed * deltaTime) d3.y d3.z else d3
  d4

/-- The `handleMovement` closure: build the local direction from held keys
with `speed = 5.0`; if it is nonzero, rotate it by the camera quaternion,
zero its vertical component, and add it to the camera position. -/
def handleMovement (st : ClientState) (keys : Keys) (deltaTime : ℝ) :
    ClientState :=
  let speed : ℝ := 5.0
  let direction := moveDirection keys speed deltaTime
  if direction.length > 0 then
    let rotated := direction.applyQuaternion st.camQuat
    let flat := Vec3.mk rotated.x 0 rotated.z
    ClientState.mk st.yaw st.pitch st.camQuat (st.camPos.add flat)
  else st

/-- The camera's forward direction: the local `-z` axis rotated into world
space by the camera quaternion. -/
def cameraForward (q : Quat) : Vec3 :=
  (Vec3.mk 0 0 (-1)).applyQuaternion q

/-- Projection of a vector onto the ground plane (vertical component
dropped). -/
def groundProjection (v : Vec3) : Vec3 :=
  Vec3.mk v.x 0 v.z

end

/-! ## Theorems: server -/

lemma joinRoom_rooms_self (st : ServerState) (sid team : String) :
    (joinRoom st sid team).rooms team = insert sid (st.rooms team) := by
  simp [joinRoom]

lemma teamPlayerCount_joinRoom (st : ServerState) (sid team : String) :
    teamPlayerCount (joinRoom st sid team) team
      = ((joinRoom st sid team).rooms team).card := by
  have hne : (joinRoom st sid team).rooms team ≠ ∅ := by
    rw [joinRoom_rooms_self]
    exact Finset.insert_ne_empty _ _
  simp [teamPlayerCount, roomLookup, hne]

/-- Claim C8: in every reachable server state, `GET /health` answers
HTTP 200 with body status `"ok"`; the handler is total (no failure path)
and its response does not depend on the relay state. -/
theorem health_ok (st st' : ServerState) :
    healthHandler st
        = HttpResponse.mk 200
            (HealthBody.mk "ok" "The Resistance server is running")
      ∧ (healthHandler st).statusCode = 200
      ∧ (healthHandler st).body.status = "ok"
      ∧ healthHandler st = healthHandler st' :=
  ⟨rfl, rfl, rfl, rfl⟩

/-- Claim C9: after `socket.join(team)` the adapter lookup
`rooms.get(team)` always finds the (nonempty) room, so the `|| 0` fallback
of the `join-team` handler is unreachable and the `playerCount` it emits
(which is `teamPlayerCount` of the post-join state, by definition of
`onJoinTeam`) is at least 1. -/
theorem joined_room_count_pos (st : ServerState) (sid team : String) :
    roomLookup (joinRoom st sid team) team
        = some ((joinRoom st sid team).rooms team)
      ∧ 1 ≤ teamPlayerCount (joinRoom st sid team) team := by
  have hne : (joinRoom st sid team).rooms team ≠ ∅ := by
    rw [joinRoom_rooms_self]
    exact Finset.insert_ne_empty _ _
  constructor
  · simp [roomLookup, hne]
  · rw [teamPlayerCount_joinRoom, joinRoom_rooms_self]
    exact Finset.card_pos.mpr ⟨sid, Finset.mem_insert_self _ _⟩

/-- Claim C4: joining `"resistance"` and then `"nazi"` from the same
connection leaves the connection a member of both rooms, and joining a team
never removes membership of any previously joined room. -/
theorem join_accumulates_membership (st : ServerState) (sid x r team : String)
    (hx : x ∈ st.rooms r) :
    x ∈ (joinRoom st sid team).rooms r
      ∧ sid ∈ (joinRoom (joinRoom st sid "resistance") sid "nazi").rooms
          "resistance"
      ∧ sid ∈ (joinRoom (joinRoom st sid "resistance") sid "nazi").rooms
          "nazi" := by
  have hrn : ("resistance" : String) ≠ "nazi" := by decide
  refine ⟨?_, ?_, ?_⟩
  · by_cases h : r = team
    · subst h
      rw [joinRoom_rooms_self]
      exact Finset.mem_insert_of_mem hx
    · simpa [joinRoom, h] using hx
  · simp [joinRoom, hrn]
  · simp [joinRoom]

/-- Witness for C4 at a concrete state in which connection `"x"` is already
a member of room `"lobby"`. -/
theorem join_accumulates_membership_witness :
    ("x" ∈ (ServerState.mk ∅ (fun _ => {"x"})).rooms "lobby")
      ∧ ("x" ∈ (joinRoom (ServerState.mk ∅ (fun _ => {"x"})) "a" "nazi").rooms
            "lobby"
          ∧ "a" ∈ (joinRoom (joinRoom (ServerState.mk ∅ (fun _ => {"x"})) "a"
              "resistance") "a" "nazi").rooms "resistance"
          ∧ "a" ∈ (joinRoom (joinRoom (ServerState.mk ∅ (fun _ => {"x"})) "a"
              "resistance") "a" "nazi").rooms "nazi") :=
  ⟨by decide,
   join_accumulates_membership (ServerState.mk ∅ (fun _ => {"x"})) "a" "x"
     "lobby" "nazi" (by decide)⟩

/-- Claim C3: transport teardown removes the connection from every room, and
a subsequent `join-team` by a different connection reports a `playerCount`
counting a room set from which the departed connection is absent. -/
theorem disconnect_removes_rooms (st : ServerState) (d c team : String)
    (h : c ≠ d) :
    (∀ r, d ∉ (disconnectState st d).rooms r)
      ∧ d ∉ (joinRoom (disconnectState st d) c team).rooms team
      ∧ teamPlayerCount (joinRoom (disconnectState st d) c team) team
          = ((joinRoom (disconnectState st d) c team).rooms team).card := by
  refine ⟨?_, ?_, ?_⟩
  · intro r
    simp [disconnectState]
  · rw [joinRoom_rooms_self]
    simp [disconnectState, Finset.mem_insert, Ne.symm h]
  · exact teamPlayerCount_joinRoom _ _ _

/-- Witness for C3 at a concrete state in which `"d"` is a member of every
room and then disconnects, before `"c"` joins `"resistance"`. -/
theorem disconnect_removes_rooms_witness :
    (("c" : String) ≠ "d")
      ∧ ((∀ r, "d" ∉ (disconnectState
            (ServerState.mk {"c", "d"} (fun _ => {"d"})) "d").rooms r)
          ∧ "d" ∉ (joinRoom (disconnectState
              (ServerState.mk {"c", "d"} (fun _ => {"d"})) "d") "c"
              "resistance").rooms "resistance"
          ∧ teamPlayerCount (joinRoom (disconnectState
              (ServerState.mk {"c", "d"} (fun _ => {"d"})) "d") "c"
              "resistance") "resistance"
            = ((joinRoom (disconnectState
                (ServerState.mk {"c", "d"} (fun _ => {"d"})) "d") "c"
                "resistance").rooms "resistance").card) :=
  ⟨by decide,
   disconnect_removes_rooms (ServerState.mk {"c", "d"} (fun _ => {"d"})) "d"
     "c" "resistance" (by decide)⟩

lemma reachable_rooms_subset {st : ServerState} (h : Reachable st)
    (r : String) : st.rooms r ⊆ st.connected := by
  induction h with
  | init =>
    intro x hx
    simp [initialState] at hx
  | connect st sid hst hfresh ih =>
    intro x hx
    have hx' : x ∈ st.rooms r := hx
    exact Finset.mem_insert_of_mem (ih hx')
  | disconnect st sid hst hmem ih =>
    intro x hx
    have hx' : x ∈ (st.rooms r).erase sid := hx
    rcases Finset.mem_erase.mp hx' with ⟨hne, hmem'⟩
    exact Finset.mem_erase.mpr ⟨hne, ih hmem'⟩
  | joinTeam st sid team hst hmem ih =>
    intro x hx
    by_cases hr : r = team
    · subst hr
      rw [joinRoom_rooms_self] at hx
      rcases Finset.mem_insert.mp hx with hx | hx
      · subst hx
        exact hmem
      · exact ih hx
    · have hx' : x ∈ st.rooms r := by
        simpa [joinRoom, hr] using hx
      exact ih hx'

/-- Claim C2: the `join-team` handler replies `team-joined` to the sender
and emits `team-update` to every member of the joined room, the new member
included; the `playerCount` carried equals the number of currently connected
connections whose membership set includes that room at the instant of the
join. -/
theorem joinTeam_update_count (V : Type) (st : ServerState) (sid team : String)
    (hr : Reachable st) (hc : sid ∈ st.connected) :
    (onJoinTeam st sid team : ServerState × List (ServerEvent V)).snd
        = ServerEvent.teamJoined sid team ::
            (idList ((joinRoom st sid team).rooms team)).map
              (fun t => ServerEvent.teamUpdate t ("New player joined " ++ team)
                (teamPlayerCount (joinRoom st sid team) team))
      ∧ sid ∈ (joinRoom st sid team).rooms team
      ∧ teamPlayerCount (joinRoom st sid team) team
          = ((joinRoom st sid team).connected.filter
              (fun c => c ∈ (joinRoom st sid team).rooms team)).card := by
  refine ⟨rfl, ?_, ?_⟩
  · rw [joinRoom_rooms_self]
    exact Finset.mem_insert_self _ _
  · have hsub : (joinRoom st sid team).rooms team ⊆ st.connected := by
      rw [joinRoom_rooms_self]
      exact Finset.insert_subset hc (reachable_rooms_subset hr team)
    have hconn : (joinRoom st sid team).connected = st.connected := rfl
    rw [teamPlayerCount_joinRoom, hconn, Finset.filter_mem_eq_inter,
      Finset.inter_eq_right.mpr hsub]

/-- Witness for C2: the first connection `"a"` joins `"resistance"` from the
reachable one-connection state. -/
theorem joinTeam_update_count_witness :
    Reachable (connectState initialState "a")
      ∧ "a" ∈ (connectState initialState "a").connected
      ∧ ((onJoinTeam (connectState initialState "a") "a" "resistance"
            : ServerState × List (ServerEvent Nat)).snd
          = ServerEvent.teamJoined "a" "resistance" ::
              (idList ((joinRoom (connectState initialState "a") "a"
                  "resistance").rooms "resistance")).map
                (fun t => ServerEvent.teamUpdate t
                  ("New player joined " ++ "resistance")
                  (teamPlayerCount (joinRoom (connectState initialState "a")
                    "a" "resistance") "resistance"))
        ∧ "a" ∈ (joinRoom (connectState initialState "a") "a"
            "resistance").rooms "resistance"
        ∧ teamPlayerCount (joinRoom (connectState initialState "a") "a"
            "resistance") "resistance"
          = ((joinRoom (connectState initialState "a") "a"
              "resistance").connected.filter
                (fun c => c ∈ (joinRoom (connectState initialState "a") "a"
                  "resistance").rooms "resistance")).card) :=
  ⟨Reachable.connect initialState "a" Reachable.init (by simp [initialState]),
   by simp [connectState],
   joinTeam_update_count Nat (connectState initialState "a") "a" "resistance"
     (Reachable.connect initialState "a" Reachable.init
       (by simp [initialState]))
     (by simp [connectState])⟩

lemma filterMap_eq_single {β : Type} (l : List String) (t : String) (c : β) :
    l.Nodup →
      l.filterMap (fun x => if x = t then some c else none)
        = if t ∈ l then [c] else [] := by
  induction l with
  | nil =>
    intro _
    simp
  | cons a as ih =>
    intro hl
    rcases List.nodup_cons.mp hl with ⟨ha, has⟩
    by_cases hat : a = t
    · subst hat
      have h1 : as.filterMap (fun x => if x = a then some c else none) = [] := by
        rw [ih has, if_neg ha]
      rw [List.filterMap_cons, h1]
      simp
    · have h2 : (if a = t then some c else none) = none := if_neg hat
      rw [List.filterMap_cons, h2, ih has]
      by_cases htas : t ∈ as
      · rw [if_pos htas, if_pos (List.mem_cons_of_mem a htas)]
      · have hnot : t ∉ a :: as := by
          intro hmem
          rcases List.mem_cons.mp hmem with hmem | hmem
          · exact hat hmem.symm
          · exact htas hmem
        rw [if_neg htas, if_neg hnot]

lemma receivedMoves_onPlayerMove {V : Type} (st : ServerState) (A t : String)
    (p r : V) :
    receivedMoves t
        (onPlayerMove st A p r : ServerState × List (ServerEvent V)).snd
      = if t ∈ st.connected.erase A then [(A, p, r)] else [] := by
  have hnd : (idList (st.connected.erase A)).Nodup := Finset.sort_nodup _ _
  have hstep :
      receivedMoves t
          (onPlayerMove st A p r : ServerState × List (ServerEvent V)).snd
        = (idList (st.connected.erase A)).filterMap
            (fun tgt => if tgt = t then some (A, p, r) else none) := by
    simp [receivedMoves, onPlayerMove, broadcastTargets, List.filterMap_map,
      Function.comp_def, movePayload]
  rw [hstep, filterMap_eq_single _ _ _ hnd]
  simp [idList, Finset.mem_sort]

lemma receivedMoves_append {V : Type} (t : String)
    (l1 l2 : List (ServerEvent V)) :
    receivedMoves t (l1 ++ l2)
      = receivedMoves t l1 ++ receivedMoves t l2 := by
  simp [receivedMoves]

lemma receivedMoves_run_moves {V : Type} (st : ServerState) (A t : String)
    (reports : List (V × V)) :
    receivedMoves t
        (run st (reports.map (fun d => ClientEvent.playerMove A d.1 d.2))).snd
      = if t ∈ st.connected.erase A
          then reports.map (fun d => (A, d.1, d.2)) else [] := by
  induction reports with
  | nil =>
    simp [run, receivedMoves]
  | cons d rest ih =>
    have hrun :
        (run st ((d :: rest).map
            (fun d => ClientEvent.playerMove A d.1 d.2))).snd
          = (onPlayerMove st A d.1 d.2
              : ServerState × List (ServerEvent V)).snd
            ++ (run st (rest.map
                (fun d => ClientEvent.playerMove A d.1 d.2))).snd := by
      simp [run, applyEvent, onPlayerMove]
    rw [hrun, receivedMoves_append, receivedMoves_onPlayerMove, ih]
    by_cases hm : t ∈ st.connected.erase A <;> simp [hm]

/-- Claim C1: over any sequence of `player-move` reports from connection
`A`, every other currently connected socket `t` receives exactly one
`player-moved` broadcast per report, in order, carrying `A` as `playerId`
and the report's position and rotation; `A` itself receives none. -/
theorem playerMove_broadcast (V : Type) (st : ServerState) (A t : String)
    (reports : List (V × V)) (ht : t ∈ st.connected) (hne : t ≠ A) :
    receivedMoves t
        (run st (reports.map (fun d => ClientEvent.playerMove A d.1 d.2))).snd
        = reports.map (fun d => (A, d.1, d.2))
      ∧ receivedMoves A
          (run st (reports.map
            (fun d => ClientEvent.playerMove A d.1 d.2))).snd = [] := by
  constructor
  · rw [receivedMoves_run_moves,
      if_pos (Finset.mem_erase.mpr ⟨hne, ht⟩)]
  · rw [receivedMoves_run_moves]
    simp

/-- Witness for C1: two connected sockets `"a"` and `"b"`; `"a"` reports one
movement with payload `(1, 2)`. -/
theorem playerMove_broadcast_witness :
    "b" ∈ (ServerState.mk {"a", "b"} (fun _ => ∅)).connected
      ∧ ("b" : String) ≠ "a"
      ∧ (receivedMoves "b"
            (run (ServerState.mk {"a", "b"} (fun _ => ∅))
              ([((1 : Nat), (2 : Nat))].map
                (fun d => ClientEvent.playerMove "a" d.1 d.2))).snd
            = [((1 : Nat), (2 : Nat))].map (fun d => ("a", d.1, d.2))
        ∧ receivedMoves "a"
            (run (ServerState.mk {"a", "b"} (fun _ => ∅))
              ([((1 : Nat), (2 : Nat))].map
                (fun d => ClientEvent.playerMove "a" d.1 d.2))).snd = []) :=
  ⟨by decide, by decide,
   playerMove_broadcast Nat (ServerState.mk {"a", "b"} (fun _ => ∅)) "a" "b"
     [(1, 2)] (by decide) (by decide)⟩

/-! ## Theorems: client -/

/-- Claim C10: while pointer capture is not active, a raw pointer-movement
sample changes nothing: yaw, pitch, the camera orientation and the camera
position are all left untouched. -/
theorem mousemove_unlocked_noop (st : ClientState) (dx dy : ℝ) :
    onMouseMove st (MouseSample.mk false dx dy) = st := by
  simp [onMouseMove]

lemma onMouseMove_pitch_bounds (st : ClientState) (s : MouseSample)
    (h1 : -(Real.pi / 2) ≤ st.pitch) (h2 : st.pitch ≤ Real.pi / 2) :
    -(Real.pi / 2) ≤ (onMouseMove st s).pitch
      ∧ (onMouseMove st s).pitch ≤ Real.pi / 2 := by
  rcases s with ⟨locked, mx, my⟩
  cases locked
  · simpa [onMouseMove] using ⟨h1, h2⟩
  · constructor
    · simp only [onMouseMove]
      exact le_max_left _ _
    · simp only [onMouseMove]
      exact max_le (by linarith [Real.pi_pos]) (min_le_left _ _)

lemma runMouse_pitch_bounds (samples : List MouseSample) :
    ∀ st : ClientState, -(Real.pi / 2) ≤ st.pitch → st.pitch ≤ Real.pi / 2 →
      -(Real.pi / 2) ≤ (runMouse st samples).pitch
        ∧ (runMouse st samples).pitch ≤ Real.pi / 2 := by
  induction samples with
  | nil =>
    intro st h1 h2
    exact ⟨h1, h2⟩
  | cons s rest ih =>
    intro st h1 h2
    have hstep := onMouseMove_pitch_bounds st s h1 h2
    simpa [runMouse, List.foldl_cons] using
      ih (onMouseMove st s) hstep.1 hstep.2

/-- Claim C5: starting from the initial pitch of 0, after every
pointer-movement update of any sequence of raw samples the camera pitch
remains within the closed interval from minus pi over two to pi over two. -/
theorem pitch_clamped (samples : List MouseSample) :
    -(Real.pi / 2) ≤ (runMouse initialClientState samples).pitch
      ∧ (runMouse initialClientState samples).pitch ≤ Real.pi / 2 := by
  have h1 : -(Real.pi / 2) ≤ (initialClientState).pitch := by
    simp only [initialClientState]
    linarith [Real.pi_pos]
  have h2 : (initialClientState).pitch ≤ Real.pi / 2 := by
    simp only [initialClientState]
    linarith [Real.pi_pos]
  exact runMouse_pitch_bounds samples initialClientState h1 h2

lemma moveDirection_zero_dt (keys : Keys) (speed : ℝ) :
    moveDirection keys speed 0 = Vec3.mk 0 0 0 := by
  rcases keys with ⟨w, s, a, d⟩
  cases w <;> cases s <;> cases a <;> cases d <;>
    norm_num [moveDirection]

/-- Claim C7: a movement update with `deltaTime = 0` (the first frame)
leaves the client state, and in particular the camera position, unchanged
for every combination of held movement keys. -/
theorem zero_deltaTime_no_move (st : ClientState) (keys : Keys) :
    handleMovement st keys 0 = st := by
  have hlen : (moveDirection keys 5.0 0).length = 0 := by
    rw [moveDirection_zero_dt]
    simp [Vec3.length]
  simp [handleMovement, hlen]

lemma applyQuat_euler_z (p y vz : ℝ) :
    (Vec3.mk 0 0 vz).applyQuaternion (Quat.setFromEulerYXZ p y 0)
      = Vec3.mk (vz * (Real.sin y * Real.cos p)) (-(vz * Real.sin p))
          (vz * (Real.cos y * Real.cos p)) := by
  have pyth1 : Real.sin (p / 2) ^ 2 + Real.cos (p / 2) ^ 2 = 1 :=
    Real.sin_sq_add_cos_sq _
  have pyth2 : Real.sin (y / 2) ^ 2 + Real.cos (y / 2) ^ 2 = 1 :=
    Real.sin_sq_add_cos_sq _
  have hsp : Real.sin p = 2 * Real.sin (p / 2) * Real.cos (p / 2) := by
    nth_rewrite 1 [show p = 2 * (p / 2) by ring]
    exact Real.sin_two_mul _
  have hcp : Real.cos p = 2 * Real.cos (p / 2) ^ 2 - 1 := by
    nth_rewrite 1 [show p = 2 * (p / 2) by ring]
    exact Real.cos_two_mul _
  have hsy : Real.sin y = 2 * Real.sin (y / 2) * Real.cos (y / 2) := by
    nth_rewrite 1 [show y = 2 * (y / 2) by ring]
    exact Real.sin_two_mul _
  have hcy : Real.cos y = 2 * Real.cos (y / 2) ^ 2 - 1 := by
    nth_rewrite 1 [show y = 2 * (y / 2) by ring]
    exact Real.cos_two_mul _
  simp only [Vec3.applyQuaternion, Quat.setFromEulerYXZ]
  norm_num [Vec3.mk.injEq, Real.cos_zero, Real.sin_zero]
  refine ⟨?_, ?_, ?_⟩
  · rw [hsy, hcp]
    linear_combination
      (-2 * vz * Real.sin (y / 2) * Real.cos (y / 2)) * pyth1
  · rw [hsp]
    linear_combination
      (-2 * vz * Real.sin (p / 2) * Real.cos (p / 2)) * pyth2
  · rw [hcy, hcp]
    linear_combination (-2 * vz * Real.cos (y / 2) ^ 2) * pyth1
      + (-2 * vz * Real.cos (p / 2) ^ 2) * pyth2

lemma handleMovement_keyW (yaw pitch p y : ℝ) (pos : Vec3) :
    handleMovement (ClientState.mk yaw pitch (Quat.setFromEulerYXZ p y 0) pos)
        onlyW 1
      = ClientState.mk yaw pitch (Quat.setFromEulerYXZ p y 0)
          (pos.add (Vec3.mk (-(5 * (Real.sin y * Real.cos p))) 0
            (-(5 * (Real.cos y * Real.cos p))))) := by
  have hdir : moveDirection onlyW 5.0 1 = Vec3.mk 0 0 (-5) := by
    norm_num [moveDirection, onlyW]
  have hlen : (Vec3.mk (0 : ℝ) 0 (-5)).length = 5 := by
    simp only [Vec3.length]
    rw [show (0 : ℝ) * 0 + 0 * 0 + (-5) * (-5) = 5 ^ 2 by norm_num]
    exact Real.sqrt_sq (by norm_num)
  have hrot := applyQuat_euler_z p y (-5)
  simp only [handleMovement, hdir, hlen]
  rw [if_pos (by norm_num : (5 : ℝ) > 0), hrot]
  simp only [Vec3.add, ClientState.mk.injEq, Vec3.mk.injEq]
  norm_num

/-- Claim C6 (amended): with only `KeyW` held and `deltaTime = 1`, the
movement update displaces the camera by exactly `speed` (5.0) times the
camera's forward direction projected onto the ground plane — a displacement
with zero vertical component whose magnitude is `5 * |cos pitch|`, which
equals 5.0 exactly when the camera pitch is level (cos pitch = ±1), not for
every camera pose. -/
theorem keyW_displacement (p y yaw pitch : ℝ) (pos : Vec3) :
    ((handleMovement (ClientState.mk yaw pitch (Quat.setFromEulerYXZ p y 0)
          pos) onlyW 1).camPos).sub pos
        = Vec3.smul 5
            (groundProjection (cameraForward (Quat.setFromEulerYXZ p y 0)))
      ∧ (((handleMovement (ClientState.mk yaw pitch
            (Quat.setFromEulerYXZ p y 0) pos) onlyW 1).camPos).sub pos).y = 0
      ∧ (((handleMovement (ClientState.mk yaw pitch
            (Quat.setFromEulerYXZ p y 0) pos) onlyW 1).camPos).sub
              pos).length
          = 5 * |Real.cos p| := by
  rw [handleMovement_keyW]
  have hsub : ∀ v : Vec3, (pos.add v).sub pos = v := by
    intro v
    simp [Vec3.add, Vec3.sub]
  simp only [hsub]
  refine ⟨?_, by trivial, ?_⟩
  · simp only [cameraForward]
    rw [applyQuat_euler_z]
    simp only [groundProjection, Vec3.smul]
    congr 1 <;> ring
  · simp only [Vec3.length]
    have h1 : Real.sin y ^ 2 + Real.cos y ^ 2 = 1 := Real.sin_sq_add_cos_sq y
    have hsq : -(5 * (Real.sin y * Real.cos p))
          * -(5 * (Real.sin y * Real.cos p)) + 0 * 0
          + -(5 * (Real.cos y * Real.cos p))
            * -(5 * (Real.cos y * Real.cos p))
        = (5 * |Real.cos p|) ^ 2 := by
      rw [mul_pow, sq_abs]
      linear_combination (25 * Real.cos p ^ 2) * h1
    rw [hsq]
    exact Real.sqrt_sq (by positivity)

/-- Counterexample to Claim C6 as stated: at camera pitch pi over two
(looking straight up), with only `KeyW` held and `deltaTime = 1`, the
movement update displaces the camera by magnitude 0, not 5.0 — the code
scales the ground-projected forward vector without renormalising it. -/
theorem keyW_magnitude_cex :
    ¬ (((handleMovement (ClientState.mk 0 (Real.pi / 2)
          (Quat.setFromEulerYXZ (Real.pi / 2) 0 0) (Vec3.mk 0 0 0)) onlyW
            1).camPos).sub (Vec3.mk 0 0 0)).length = 5 := by
  rw [handleMovement_keyW]
  norm_num [Vec3.add, Vec3.sub, Vec3.length, Real.cos_pi_div_two,
    Real.sin_zero, Real.cos_zero, Real.sqrt_zero]
